import Mathlib

/-!
Verification of the local file-storage layer of the `shinsei` repository
(`src-tauri/src/commands/storage.rs`).

The storage layer persists named byte blobs as files under
`<app_data_dir>/studio-datastores/<datastore>/<key>`.  We embed it over an
abstract filesystem: a path is a list of name components, a component is
either a UTF-8 decodable name or a raw (undecodable) one, and the filesystem
state maps paths to nodes (directories or files with byte content).
-/

set_option autoImplicit false

namespace Shinsei

/-- A file-name component.  `utf8 s` is a name that decodes to the string
`s`; `raw id` stands for an OS name that is not valid UTF-8 (Rust
`OsString` whose `to_str()` returns `None`). -/
inductive FName where
  | utf8 (s : String)
  | raw (id : Nat)
deriving DecidableEq

/-- Rust `OsStr::to_str`: recover the string form of a name, when it is
valid UTF-8. -/
def FName.decode : FName → Option String
  | .utf8 s => some s
  | .raw _ => none

/-- A filesystem path, as a list of already-resolved name components. -/
abbrev Path := List FName

/-- Byte sequences. -/
abbrev Bytes := List Nat

/-- A filesystem node: a directory or a regular file with its contents. -/
inductive Node where
  | dir
  | file (content : Bytes)
deriving DecidableEq

/-- The filesystem state: an association list from paths to nodes. -/
structure FS where
  entries : List (Path × Node)
deriving DecidableEq

/-- Success-or-error results. -/
inductive Result (ε : Type) (α : Type) where
  | ok (val : α)
  | err (e : ε)
deriving DecidableEq

/-- Kinds of I/O errors, mirroring `std::io::ErrorKind`. -/
inductive IOErrorKind where
  | notFound
  | isADirectory
  | notADirectory
  | alreadyExists
  | invalidData
deriving DecidableEq

/-- An I/O error: kind, display message and raw OS error code. -/
structure IOError where
  kind : IOErrorKind
  message : String
  osCode : Option Nat
deriving DecidableEq

def notFoundErr : IOError :=
  ⟨IOErrorKind.notFound, "No such file or directory (os error 2)", some 2⟩

def isDirErr : IOError :=
  ⟨IOErrorKind.isADirectory, "Is a directory (os error 21)", some 21⟩

def notDirErr : IOError :=
  ⟨IOErrorKind.notADirectory, "Not a directory (os error 20)", some 20⟩

def fileExistsErr : IOError :=
  ⟨IOErrorKind.alreadyExists, "File exists (os error 17)", some 17⟩

/-- `io::Error` produced by `read_to_string` on non-UTF-8 content. -/
def invalidUtf8Err : IOError :=
  ⟨IOErrorKind.invalidData, "stream did not contain valid UTF-8", none⟩

/-- Look a path up in the filesystem. -/
def FS.lookup (fs : FS) (p : Path) : Option Node :=
  (fs.entries.find? (fun e => decide (e.1 = p))).map Prod.snd

/-- Store a node at a path, replacing whatever was there. -/
def FS.set (fs : FS) (p : Path) (n : Node) : FS :=
  ⟨(p, n) :: fs.entries.filter (fun e => !decide (e.1 = p))⟩

/-- Remove the node at a path. -/
def FS.erase (fs : FS) (p : Path) : FS :=
  ⟨fs.entries.filter (fun e => !decide (e.1 = p))⟩

/-- The immediate entries of directory `p`: name component and node of
every path of the form `p ++ [c]`. -/
def FS.childrenOf (fs : FS) (p : Path) : List (FName × Node) :=
  fs.entries.filterMap (fun e =>
    match e.1.getLast? with
    | some c => if e.1.dropLast = p then some (c, e.2) else none
    | none => none)

/-- Whether `p` denotes an existing directory (the root `[]` always does). -/
def FS.isDirAt (fs : FS) (p : Path) : Bool :=
  p = [] || decide (fs.lookup p = some Node.dir)

/-- `std::fs::read`: the file's bytes, `NotFound` if nothing is there,
`EISDIR` if the path is a directory. -/
def fsRead (fs : FS) (p : Path) : Result IOError Bytes :=
  if p = [] then .err isDirErr else
  match fs.lookup p with
  | some (Node.file b) => .ok b
  | some Node.dir => .err isDirErr
  | none => .err notFoundErr

/-- `std::fs::write`: create or truncate the file at `p` with contents `v`.
Fails with `EISDIR` when `p` is a directory and with `NotFound` when the
parent directory does not exist. -/
def fsWrite (fs : FS) (p : Path) (v : Bytes) : FS × Result IOError Unit :=
  if p = [] then (fs, .err isDirErr) else
  match fs.lookup p with
  | some Node.dir => (fs, .err isDirErr)
  | _ =>
    if fs.isDirAt p.dropLast then (fs.set p (Node.file v), .ok ())
    else (fs, .err notFoundErr)

/-- `std::fs::remove_file`: unlink the file at `p`; `NotFound` if absent,
`EISDIR` if `p` is a directory. -/
def fsRemoveFile (fs : FS) (p : Path) : FS × Result IOError Unit :=
  if p = [] then (fs, .err isDirErr) else
  match fs.lookup p with
  | some (Node.file _) => (fs.erase p, .ok ())
  | some Node.dir => (fs, .err isDirErr)
  | none => (fs, .err notFoundErr)

/-- `std::fs::read_dir`: the immediate entries of directory `p`. -/
def fsReadDir (fs : FS) (p : Path) : Result IOError (List (FName × Node)) :=
  if p = [] then .ok (fs.childrenOf []) else
  match fs.lookup p with
  | some Node.dir => .ok (fs.childrenOf p)
  | some (Node.file _) => .err notDirErr
  | none => .err notFoundErr

/-- Worker for `fsCreateDirAll`: `done` is the already-processed path,
`rest` the components still to create.  Each missing component is created
as a directory; a file in the way aborts with the partial state kept. -/
def fsCreateDirAllGo (fs : FS) (done : Path) (rest : Path) : FS × Result IOError Unit :=
  match rest with
  | [] => (fs, .ok ())
  | c :: rest' =>
    match fs.lookup (done ++ [c]) with
    | some Node.dir => fsCreateDirAllGo fs (done ++ [c]) rest'
    | some (Node.file _) =>
      (fs, .err (if rest' = [] then fileExistsErr else notDirErr))
    | none => fsCreateDirAllGo (fs.set (done ++ [c]) Node.dir) (done ++ [c]) rest'

/-- `std::fs::create_dir_all`: create the directory at `p` together with
all missing ancestors; pre-existing directories are not an error. -/
def fsCreateDirAll (fs : FS) (p : Path) : FS × Result IOError Unit :=
  fsCreateDirAllGo fs [] p

/-- Rust `Path::join`, at the resolution level: joining the empty string
adds only a trailing separator, which resolves to the same directory. -/
def pathJoin (p : Path) (s : String) : Path :=
  if s = "" then p else p ++ [FName.utf8 s]

/-! ### UTF-8

`storage_put_string` writes the UTF-8 encoding of its string argument and
`storage_get_string` (via `fs::read_to_string`) decodes file bytes,
rejecting anything that is not valid UTF-8 exactly as Rust's validator
does (no overlong forms, no surrogates, no code points above `0x10FFFF`). -/

/-- UTF-8 encoding of a single scalar value (Rust `char`). -/
def utf8EncodeChar (c : Char) : Bytes :=
  let n := c.toNat
  if n < 0x80 then [n]
  else if n < 0x800 then [0xC0 + n / 64, 0x80 + n % 64]
  else if n < 0x10000 then [0xE0 + n / 4096, 0x80 + (n / 64) % 64, 0x80 + n % 64]
  else [0xF0 + n / 0x40000, 0x80 + (n / 4096) % 64, 0x80 + (n / 64) % 64, 0x80 + n % 64]

/-- Rust `String::as_bytes` composed with our byte model: the UTF-8
encoding of a string. -/
def utf8Encode (s : String) : Bytes :=
  (s.data.map utf8EncodeChar).flatten

/-- UTF-8 decoding, following Rust's `core::str` validation tables: the
decoded scalar values, or `none` when the bytes are not valid UTF-8. -/
def utf8Decode (l : Bytes) : Option (List Char) :=
  match l with
  | [] => some []
  | b :: rest =>
    if b < 0x80 then
      (utf8Decode rest).map (fun cs => Char.ofNat b :: cs)
    else if b < 0xC2 then none
    else if b < 0xE0 then
      match rest with
      | b1 :: rest' =>
        if 0x80 ≤ b1 ∧ b1 < 0xC0 then
          (utf8Decode rest').map (fun cs =>
            Char.ofNat ((b - 0xC0) * 64 + (b1 - 0x80)) :: cs)
        else none
      | [] => none
    else if b < 0xF0 then
      match rest with
      | b1 :: b2 :: rest' =>
        let lo1 : Nat := if b = 0xE0 then 0xA0 else 0x80
        let hi1 : Nat := if b = 0xED then 0x9F else 0xBF
        if lo1 ≤ b1 ∧ b1 ≤ hi1 ∧ 0x80 ≤ b2 ∧ b2 < 0xC0 then
          (utf8Decode rest').map (fun cs =>
            Char.ofNat ((b - 0xE0) * 4096 + (b1 - 0x80) * 64 + (b2 - 0x80)) :: cs)
        else none
      | _ => none
    else if b < 0xF5 then
      match rest with
      | b1 :: b2 :: b3 :: rest' =>
        let lo1 : Nat := if b = 0xF0 then 0x90 else 0x80
        let hi1 : Nat := if b = 0xF4 then 0x8F else 0xBF
        if lo1 ≤ b1 ∧ b1 ≤ hi1 ∧ 0x80 ≤ b2 ∧ b2 < 0xC0 ∧ 0x80 ≤ b3 ∧ b3 < 0xC0 then
          (utf8Decode rest').map (fun cs =>
            Char.ofNat ((b - 0xF0) * 0x40000 + (b1 - 0x80) * 4096 +
              (b2 - 0x80) * 64 + (b3 - 0x80)) :: cs)
        else none
      | _ => none
    else none

/-- `std::fs::read_to_string`: read the file and decode it as UTF-8,
failing with `InvalidData` on bytes that are not valid UTF-8. -/
def fsReadToString (fs : FS) (p : Path) : Result IOError String :=
  match fsRead fs p with
  | .err e => .err e
  | .ok b =>
    match utf8Decode b with
    | some cs => .ok (String.mk cs)
    | none => .err invalidUtf8Err

/-! ### The storage layer (`src-tauri/src/commands/storage.rs`)

The Tauri `AppHandle` only contributes the application data directory, so
the embedding takes that directory as an explicit `Path` argument; the
filesystem state is passed last and returned updated. -/

/-- Directory holding all datastores. -/
def DATASTORES_DIR_NAME : String := "studio-datastores"

/-- `StorageError`: serialized storage error with message and code. -/
structure StorageError where
  message : String
  code : Option String
deriving DecidableEq

/-- `impl From<std::io::Error> for StorageError`. -/
def StorageError.fromIo (e : IOError) : StorageError :=
  ⟨e.message, e.osCode.map (fun c => toString c)⟩

/-- The validation closure used for both datastore and key names:
`c.is_ascii_lowercase() || c == '-'` over all characters. -/
def nameCharsOk (s : String) : Bool :=
  s.data.all (fun c => decide ((97 ≤ c.toNat ∧ c.toNat ≤ 122) ∨ c = '-'))

/-- The `InvalidName`-style error produced for a bad datastore name. -/
def invalidDatastoreError (datastore : String) : StorageError :=
  ⟨"datastore (" ++ datastore ++ ") contains invalid characters", some "INVALID_NAME"⟩

/-- The `InvalidName`-style error produced for a bad key name. -/
def invalidKeyError (key : String) : StorageError :=
  ⟨"key (" ++ key ++ ") contains invalid characters", some "INVALID_KEY"⟩

/-- `get_datastore_base_path`: `<app_data_dir>/studio-datastores`. -/
def get_datastore_base_path (appDataDir : Path) : Path :=
  pathJoin appDataDir DATASTORES_DIR_NAME

/-- The datastore's directory path (the `datastore_path` binding of
`ensure_datastore_path`): `<app_data_dir>/studio-datastores/<d>`. -/
def datastorePath (appDataDir : Path) (datastore : String) : Path :=
  pathJoin (get_datastore_base_path appDataDir) datastore

/-- The entry's file path (the result of `make_file_path`):
`<app_data_dir>/studio-datastores/<d>/<k>`. -/
def entryPath (appDataDir : Path) (datastore key : String) : Path :=
  pathJoin (datastorePath appDataDir datastore) key

/-- `ensure_datastore_path`: validate the datastore name and create its
directory (and the datastores root) if missing. -/
def ensure_datastore_path (appDataDir : Path) (datastore : String) (fs : FS) :
    FS × Result StorageError Path :=
  if !nameCharsOk datastore then (fs, .err (invalidDatastoreError datastore))
  else
    match fsCreateDirAll fs (get_datastore_base_path appDataDir) with
    | (fs1, .err e) => (fs1, .err (StorageError.fromIo e))
    | (fs1, .ok _) =>
      match fsCreateDirAll fs1 (datastorePath appDataDir datastore) with
      | (fs2, .err e) => (fs2, .err (StorageError.fromIo e))
      | (fs2, .ok _) => (fs2, .ok (datastorePath appDataDir datastore))

/-- `make_file_path`: validate the key and resolve the entry's file path
inside the (created-on-demand) datastore directory. -/
def make_file_path (appDataDir : Path) (datastore key : String) (fs : FS) :
    FS × Result StorageError Path :=
  if !nameCharsOk key then (fs, .err (invalidKeyError key))
  else
    match ensure_datastore_path appDataDir datastore fs with
    | (fs1, .err e) => (fs1, .err e)
    | (fs1, .ok dsPath) => (fs1, .ok (pathJoin dsPath key))

/-- `storage_list`: file names of all immediate entries of the datastore
directory; entries whose name is not valid UTF-8 are skipped. -/
def storage_list (appDataDir : Path) (datastore : String) (fs : FS) :
    FS × Result StorageError (List String) :=
  match ensure_datastore_path appDataDir datastore fs with
  | (fs1, .err e) => (fs1, .err e)
  | (fs1, .ok dsPath) =>
    match fsReadDir fs1 dsPath with
    | .err e => (fs1, .err (StorageError.fromIo e))
    | .ok entries => (fs1, .ok (entries.filterMap (fun en => en.1.decode)))

/-- `storage_all`: contents of all regular files directly inside the
datastore directory; non-files and unreadable entries are skipped. -/
def storage_all (appDataDir : Path) (datastore : String) (fs : FS) :
    FS × Result StorageError (List Bytes) :=
  match ensure_datastore_path appDataDir datastore fs with
  | (fs1, .err e) => (fs1, .err e)
  | (fs1, .ok dsPath) =>
    match fsReadDir fs1 dsPath with
    | .err e => (fs1, .err (StorageError.fromIo e))
    | .ok entries =>
      (fs1, .ok (entries.filterMap (fun en =>
        match en.2 with
        | Node.file content => some content
        | Node.dir => none)))

/-- `storage_get`: the entry's bytes, `none` when the file is absent. -/
def storage_get (appDataDir : Path) (datastore key : String) (fs : FS) :
    FS × Result StorageError (Option Bytes) :=
  match make_file_path appDataDir datastore key fs with
  | (fs1, .err e) => (fs1, .err e)
  | (fs1, .ok filePath) =>
    match fsRead fs1 filePath with
    | .ok content => (fs1, .ok (some content))
    | .err e =>
      if e.kind = IOErrorKind.notFound then (fs1, .ok none)
      else (fs1, .err (StorageError.fromIo e))

/-- `storage_get_string`: the entry decoded as UTF-8, `none` when the file
is absent. -/
def storage_get_string (appDataDir : Path) (datastore key : String) (fs : FS) :
    FS × Result StorageError (Option String) :=
  match make_file_path appDataDir datastore key fs with
  | (fs1, .err e) => (fs1, .err e)
  | (fs1, .ok filePath) =>
    match fsReadToString fs1 filePath with
    | .ok content => (fs1, .ok (some content))
    | .err e =>
      if e.kind = IOErrorKind.notFound then (fs1, .ok none)
      else (fs1, .err (StorageError.fromIo e))

/-- `storage_put`: write the bytes at the entry's path. -/
def storage_put (appDataDir : Path) (datastore key : String) (value : Bytes) (fs : FS) :
    FS × Result StorageError Unit :=
  match make_file_path appDataDir datastore key fs with
  | (fs1, .err e) => (fs1, .err e)
  | (fs1, .ok filePath) =>
    match fsWrite fs1 filePath value with
    | (fs2, .ok _) => (fs2, .ok ())
    | (fs2, .err e) => (fs2, .err (StorageError.fromIo e))

/-- `storage_put_string`: write the string's UTF-8 bytes at the entry's
path. -/
def storage_put_string (appDataDir : Path) (datastore key : String) (value : String) (fs : FS) :
    FS × Result StorageError Unit :=
  match make_file_path appDataDir datastore key fs with
  | (fs1, .err e) => (fs1, .err e)
  | (fs1, .ok filePath) =>
    match fsWrite fs1 filePath (utf8Encode value) with
    | (fs2, .ok _) => (fs2, .ok ())
    | (fs2, .err e) => (fs2, .err (StorageError.fromIo e))

/-- `storage_delete`: remove the entry's file; a `NotFound` failure is
mapped to success. -/
def storage_delete (appDataDir : Path) (datastore key : String) (fs : FS) :
    FS × Result StorageError Unit :=
  match make_file_path appDataDir datastore key fs with
  | (fs1, .err e) => (fs1, .err e)
  | (fs1, .ok filePath) =>
    match fsRemoveFile fs1 filePath with
    | (fs2, .ok _) => (fs2, .ok ())
    | (fs2, .err e) =>
      if e.kind = IOErrorKind.notFound then (fs2, .ok ())
      else (fs2, .err (StorageError.fromIo e))

/-- `storage_exists`: whether something exists at the entry's path. -/
def storage_exists (appDataDir : Path) (datastore key : String) (fs : FS) :
    FS × Result StorageError Bool :=
  match make_file_path appDataDir datastore key fs with
  | (fs1, .err e) => (fs1, .err e)
  | (fs1, .ok filePath) => (fs1, .ok (fs1.lookup filePath).isSome)

/-- No file node sits at `q` (a directory or nothing is fine). -/
def noFileAt (fs : FS) (q : Path) : Bool :=
  match fs.lookup q with
  | some (Node.file _) => false
  | _ => true

/-- Worker predicate matching `fsCreateDirAllGo`: none of the paths the
directory-creation walk will visit is occupied by a regular file. -/
def chainFreeGo (fs : FS) (done rest : Path) : Bool :=
  match rest with
  | [] => true
  | c :: rest' => noFileAt fs (done ++ [c]) && chainFreeGo fs (done ++ [c]) rest'

/-- No prefix of `p` is occupied by a regular file, so `fsCreateDirAll`
can succeed on `p`. -/
def chainFree (fs : FS) (p : Path) : Bool := chainFreeGo fs [] p

/-! ### Basic lemmas about the filesystem model -/

@[simp] theorem FS.entries_mk (l : List (Path × Node)) : (FS.mk l).entries = l := rfl

theorem find?_entries_filter {l : List (Path × Node)} {p q : Path} (h : q ≠ p) :
    (l.filter (fun e => !decide (e.1 = p))).find? (fun e => decide (e.1 = q)) =
      l.find? (fun e => decide (e.1 = q)) := by
  induction l with
  | nil => rfl
  | cons a l ih =>
    rw [List.filter_cons]
    by_cases hp : a.1 = p
    · simp [hp, ih, Ne.symm h]
    · by_cases hq : a.1 = q
      · simp [hp, hq, h]
      · simp [hp, hq, ih]

theorem FS.lookup_set_self (fs : FS) (p : Path) (n : Node) :
    (fs.set p n).lookup p = some n := by
  simp [FS.lookup, FS.set]

theorem FS.lookup_set_ne (fs : FS) (p q : Path) (n : Node) (h : q ≠ p) :
    (fs.set p n).lookup q = fs.lookup q := by
  simp only [FS.lookup, FS.set, FS.entries_mk]
  rw [show ((p, n) :: fs.entries.filter (fun e => !decide (e.1 = p))).find?
        (fun e => decide (e.1 = q)) =
      (fs.entries.filter (fun e => !decide (e.1 = p))).find?
        (fun e => decide (e.1 = q)) by simp [Ne.symm h]]
  rw [find?_entries_filter h]

theorem FS.lookup_erase_ne (fs : FS) (p q : Path) (h : q ≠ p) :
    (fs.erase p).lookup q = fs.lookup q := by
  simp only [FS.lookup, FS.erase, FS.entries_mk]
  rw [find?_entries_filter h]

theorem FS.lookup_erase_self (fs : FS) (p : Path) :
    (fs.erase p).lookup p = none := by
  simp only [FS.lookup, FS.erase, FS.entries_mk]
  rw [Option.map_eq_none', List.find?_eq_none]
  intro x hx
  simp only [List.mem_filter] at hx
  simpa using hx.2

theorem FS.entries_filter_of_lookup_none {fs : FS} {p : Path} (h : fs.lookup p = none) :
    fs.entries.filter (fun e => !decide (e.1 = p)) = fs.entries := by
  rw [List.filter_eq_self]
  intro a ha
  have hfind : fs.entries.find? (fun e => decide (e.1 = p)) = none := by
    unfold FS.lookup at h
    exact Option.map_eq_none'.mp h
  have := List.find?_eq_none.mp hfind a ha
  simpa using this

theorem FS.childrenOf_set_of_none {fs : FS} {p r : Path} {n : Node}
    (hnone : fs.lookup p = none) (hdrop : p.dropLast ≠ r) :
    (fs.set p n).childrenOf r = fs.childrenOf r := by
  simp only [FS.childrenOf, FS.set, FS.entries_mk]
  rw [FS.entries_filter_of_lookup_none hnone, List.filterMap_cons]
  cases hpl : p.getLast? with
  | none => simp
  | some c => simp [hdrop]

/-! ### Lemmas about `fsCreateDirAll` -/

theorem go_lookup (rest : Path) : ∀ (fs : FS) (done q : Path),
    (fsCreateDirAllGo fs done rest).1.lookup q = fs.lookup q ∨
      (fs.lookup q = none ∧
        (fsCreateDirAllGo fs done rest).1.lookup q = some Node.dir) := by
  induction rest with
  | nil => intro fs done q; left; rfl
  | cons c rest' ih =>
    intro fs done q
    cases hc : fs.lookup (done ++ [c]) with
    | none =>
      simp only [fsCreateDirAllGo, hc]
      by_cases hq : q = done ++ [c]
      · subst hq
        rcases ih (fs.set (done ++ [c]) Node.dir) (done ++ [c]) (done ++ [c])
          with h1 | ⟨h1, h2⟩
        · right
          rw [FS.lookup_set_self] at h1
          exact ⟨hc, h1⟩
        · rw [FS.lookup_set_self] at h1
          exact absurd h1 (by simp)
      · rcases ih (fs.set (done ++ [c]) Node.dir) (done ++ [c]) q with h1 | ⟨h1, h2⟩
        · left
          rw [h1, FS.lookup_set_ne _ _ _ _ hq]
        · right
          rw [FS.lookup_set_ne _ _ _ _ hq] at h1
          exact ⟨h1, h2⟩
    | some n =>
      cases n with
      | dir =>
        simp only [fsCreateDirAllGo, hc]
        exact ih fs (done ++ [c]) q
      | file b =>
        simp only [fsCreateDirAllGo, hc]
        left; trivial

theorem go_children (rest : Path) : ∀ (fs : FS) (done r : Path),
    done.length + rest.length ≤ r.length →
    (fsCreateDirAllGo fs done rest).1.childrenOf r = fs.childrenOf r := by
  induction rest with
  | nil => intro fs done r _; rfl
  | cons c rest' ih =>
    intro fs done r hlen
    simp only [List.length_cons] at hlen
    cases hc : fs.lookup (done ++ [c]) with
    | none =>
      simp only [fsCreateDirAllGo, hc]
      rw [ih (fs.set (done ++ [c]) Node.dir) (done ++ [c]) r
        (by simp only [List.length_append, List.length_cons, List.length_nil]; omega)]
      refine FS.childrenOf_set_of_none hc ?_
      rw [List.dropLast_concat]
      intro hh
      have : done.length = r.length := congrArg List.length hh
      omega
    | some n =>
      cases n with
      | dir =>
        simp only [fsCreateDirAllGo, hc]
        exact ih fs (done ++ [c]) r
          (by simp only [List.length_append, List.length_cons, List.length_nil]; omega)
      | file b =>
        simp only [fsCreateDirAllGo, hc]

theorem go_lookup_long (rest : Path) : ∀ (fs : FS) (done q : Path),
    done.length + rest.length < q.length →
    (fsCreateDirAllGo fs done rest).1.lookup q = fs.lookup q := by
  induction rest with
  | nil => intro fs done q _; rfl
  | cons c rest' ih =>
    intro fs done q hlen
    simp only [List.length_cons] at hlen
    have hne : q ≠ done ++ [c] := by
      intro hh
      have := congrArg List.length hh
      simp only [List.length_append, List.length_cons, List.length_nil] at this
      omega
    cases hc : fs.lookup (done ++ [c]) with
    | none =>
      simp only [fsCreateDirAllGo, hc]
      rw [ih (fs.set (done ++ [c]) Node.dir) (done ++ [c]) q
        (by simp only [List.length_append, List.length_cons, List.length_nil]; omega)]
      exact FS.lookup_set_ne _ _ _ _ hne
    | some n =>
      cases n with
      | dir =>
        simp only [fsCreateDirAllGo, hc]
        exact ih fs (done ++ [c]) q
          (by simp only [List.length_append, List.length_cons, List.length_nil]; omega)
      | file b => simp only [fsCreateDirAllGo, hc]

theorem chainFreeGo_congr (rest : Path) : ∀ (fs fs' : FS) (done : Path),
    (∀ q : Path, done.length < q.length → q.length ≤ done.length + rest.length →
      fs'.lookup q = fs.lookup q) →
    chainFreeGo fs' done rest = chainFreeGo fs done rest := by
  induction rest with
  | nil => intro fs fs' done _; rfl
  | cons c rest' ih =>
    intro fs fs' done hq
    have hlen : (done ++ [c]).length = done.length + 1 := by
      simp
    simp only [chainFreeGo]
    have h1 : fs'.lookup (done ++ [c]) = fs.lookup (done ++ [c]) := by
      refine hq (done ++ [c]) ?_ ?_ <;> simp only [hlen, List.length_cons] <;> omega
    rw [show noFileAt fs' (done ++ [c]) = noFileAt fs (done ++ [c]) by
      simp only [noFileAt, h1]]
    rw [ih fs fs' (done ++ [c]) (fun q hlo hhi => by
      refine hq q ?_ ?_ <;> simp only [hlen, List.length_cons] at * <;> omega)]

theorem chainFreeGo_mono (rest : Path) : ∀ (fs fs' : FS) (done : Path),
    (∀ q : Path, fs'.lookup q = fs.lookup q ∨
        (fs.lookup q = none ∧ fs'.lookup q = some Node.dir)) →
    chainFreeGo fs done rest = true → chainFreeGo fs' done rest = true := by
  induction rest with
  | nil => intro fs fs' done _ _; rfl
  | cons c rest' ih =>
    intro fs fs' done hq hcf
    simp only [chainFreeGo, Bool.and_eq_true] at hcf ⊢
    refine ⟨?_, ih fs fs' (done ++ [c]) hq hcf.2⟩
    rcases hq (done ++ [c]) with h1 | ⟨h1, h2⟩
    · simp only [noFileAt, h1]
      exact hcf.1
    · simp only [noFileAt, h2]

theorem go_ok_of_chainFreeGo (rest : Path) : ∀ (fs : FS) (done : Path),
    chainFreeGo fs done rest = true →
    (fsCreateDirAllGo fs done rest).2 = .ok () := by
  induction rest with
  | nil => intro fs done _; rfl
  | cons c rest' ih =>
    intro fs done hcf
    simp only [chainFreeGo, Bool.and_eq_true] at hcf
    cases hc : fs.lookup (done ++ [c]) with
    | none =>
      simp only [fsCreateDirAllGo, hc]
      refine ih (fs.set (done ++ [c]) Node.dir) (done ++ [c]) ?_
      rw [chainFreeGo_congr rest' fs (fs.set (done ++ [c]) Node.dir) (done ++ [c])
        (fun q hlo _ => by
          refine FS.lookup_set_ne _ _ _ _ ?_
          intro hh
          have : q.length = (done ++ [c]).length := congrArg List.length hh
          simp only [List.length_append, List.length_cons, List.length_nil] at this hlo
          omega)]
      exact hcf.2
    | some n =>
      cases n with
      | dir =>
        simp only [fsCreateDirAllGo, hc]
        exact ih fs (done ++ [c]) hcf.2
      | file b =>
        exfalso
        have := hcf.1
        simp only [noFileAt, hc] at this
        exact absurd this Bool.false_ne_true

theorem go_ok_chainFreeGo (rest : Path) : ∀ (fs : FS) (done : Path),
    (fsCreateDirAllGo fs done rest).2 = .ok () →
    chainFreeGo (fsCreateDirAllGo fs done rest).1 done rest = true := by
  induction rest with
  | nil => intro fs done _; rfl
  | cons c rest' ih =>
    intro fs done hok
    cases hc : fs.lookup (done ++ [c]) with
    | none =>
      simp only [fsCreateDirAllGo, hc] at hok ⊢
      simp only [chainFreeGo, Bool.and_eq_true]
      refine ⟨?_, ih (fs.set (done ++ [c]) Node.dir) (done ++ [c]) hok⟩
      have hbase : (fs.set (done ++ [c]) Node.dir).lookup (done ++ [c]) = some Node.dir :=
        FS.lookup_set_self fs (done ++ [c]) Node.dir
      rcases go_lookup rest' (fs.set (done ++ [c]) Node.dir) (done ++ [c]) (done ++ [c])
        with h1 | ⟨h1, h2⟩
      · simp only [noFileAt, h1, hbase]
      · simp only [noFileAt, h2]
    | some n =>
      cases n with
      | dir =>
        simp only [fsCreateDirAllGo, hc] at hok ⊢
        simp only [chainFreeGo, Bool.and_eq_true]
        refine ⟨?_, ih fs (done ++ [c]) hok⟩
        rcases go_lookup rest' fs (done ++ [c]) (done ++ [c]) with h1 | ⟨h1, h2⟩
        · simp only [noFileAt, h1, hc]
        · simp only [noFileAt, h2]
      | file b =>
        simp only [fsCreateDirAllGo, hc] at hok
        cases hok

theorem go_ok_dir (rest : Path) : ∀ (fs : FS) (done : Path) (c : FName),
    (fsCreateDirAllGo fs done (c :: rest)).2 = .ok () →
    (fsCreateDirAllGo fs done (c :: rest)).1.lookup (done ++ c :: rest) = some Node.dir := by
  induction rest with
  | nil =>
    intro fs done c hok
    cases hc : fs.lookup (done ++ [c]) with
    | none =>
      simp only [fsCreateDirAllGo, hc]
      exact FS.lookup_set_self fs (done ++ [c]) Node.dir
    | some n =>
      cases n with
      | dir => simp only [fsCreateDirAllGo, hc]
      | file b =>
        simp only [fsCreateDirAllGo, hc] at hok
        cases hok
  | cons c' rest'' ih =>
    intro fs done c hok
    have happ : done ++ c :: c' :: rest'' = (done ++ [c]) ++ c' :: rest'' := by
      simp
    cases hc : fs.lookup (done ++ [c]) with
    | none =>
      simp only [fsCreateDirAllGo, hc] at hok ⊢
      rw [happ]
      exact ih (fs.set (done ++ [c]) Node.dir) (done ++ [c]) c' hok
    | some n =>
      cases n with
      | dir =>
        simp only [fsCreateDirAllGo, hc] at hok ⊢
        rw [happ]
        exact ih fs (done ++ [c]) c' hok
      | file b =>
        simp only [fsCreateDirAllGo, hc] at hok
        cases hok

theorem chainFreeGo_append (r1 : Path) : ∀ (fs : FS) (done r2 : Path),
    chainFreeGo fs done (r1 ++ r2) =
      (chainFreeGo fs done r1 && chainFreeGo fs (done ++ r1) r2) := by
  induction r1 with
  | nil => intro fs done r2; simp [chainFreeGo]
  | cons c r1' ih =>
    intro fs done r2
    rw [List.cons_append]
    show (noFileAt fs (done ++ [c]) && chainFreeGo fs (done ++ [c]) (r1' ++ r2)) =
      ((noFileAt fs (done ++ [c]) && chainFreeGo fs (done ++ [c]) r1') &&
        chainFreeGo fs (done ++ c :: r1') r2)
    rw [show done ++ c :: r1' = (done ++ [c]) ++ r1' by simp]
    rw [ih fs (done ++ [c]) r2, Bool.and_assoc]


/-! ### Path facts and `ensure_datastore_path` -/

theorem get_base_eq (base : Path) :
    get_datastore_base_path base = base ++ [FName.utf8 DATASTORES_DIR_NAME] := by
  rw [get_datastore_base_path, pathJoin, if_neg (by decide)]

theorem datastorePath_eq (base : Path) (d : String) :
    datastorePath base d = if d = "" then get_datastore_base_path base
      else get_datastore_base_path base ++ [FName.utf8 d] := by
  rw [datastorePath, pathJoin]

theorem datastorePath_ne_nil (base : Path) (d : String) : datastorePath base d ≠ [] := by
  rw [datastorePath_eq]
  by_cases hd : d = "" <;> simp [hd, get_base_eq]

theorem rootP_len_le (base : Path) (d : String) :
    (get_datastore_base_path base).length ≤ (datastorePath base d).length := by
  rw [datastorePath_eq]
  by_cases hd : d = "" <;> simp [hd]

theorem entryPath_eq (base : Path) (d k : String) (hk : k ≠ "") :
    entryPath base d k = datastorePath base d ++ [FName.utf8 k] := by
  rw [entryPath, pathJoin, if_neg hk]

theorem entryPath_len (base : Path) (d k : String) (hk : k ≠ "") :
    (entryPath base d k).length = (datastorePath base d).length + 1 := by
  rw [entryPath_eq base d k hk]
  simp

theorem entryPath_ne_dsPath (base : Path) (d k : String) (hk : k ≠ "") :
    entryPath base d k ≠ datastorePath base d := by
  intro hh
  have := congrArg List.length hh
  rw [entryPath_len base d k hk] at this
  omega

theorem lookup_disj_trans {a b c : Option Node}
    (h1 : b = a ∨ (a = none ∧ b = some Node.dir))
    (h2 : c = b ∨ (b = none ∧ c = some Node.dir)) :
    c = a ∨ (a = none ∧ c = some Node.dir) := by
  rcases h1 with h1 | ⟨h1a, h1b⟩
  · rcases h2 with h2 | ⟨h2a, h2b⟩
    · left; rw [h2, h1]
    · right; exact ⟨h1 ▸ h2a, h2b⟩
  · rcases h2 with h2 | ⟨h2a, h2b⟩
    · right; exact ⟨h1a, h2 ▸ h1b⟩
    · rw [h1b] at h2a
      cases h2a

theorem chainFree_root_of_dsPath {fs : FS} {base : Path} {d : String}
    (h : chainFree fs (datastorePath base d) = true) :
    chainFree fs (get_datastore_base_path base) = true := by
  rw [datastorePath_eq] at h
  by_cases hd : d = ""
  · rw [if_pos hd] at h
    exact h
  · rw [if_neg hd, chainFree, chainFreeGo_append, Bool.and_eq_true] at h
    exact h.1

theorem ensure_invalid {base : Path} {d : String} {fs : FS} (hd : nameCharsOk d = false) :
    ensure_datastore_path base d fs = (fs, .err (invalidDatastoreError d)) := by
  simp [ensure_datastore_path, hd]

theorem ensure_ok_of_chainFree {base : Path} {d : String} {fs : FS}
    (hd : nameCharsOk d = true) (hcf : chainFree fs (datastorePath base d) = true) :
    (ensure_datastore_path base d fs).2 = .ok (datastorePath base d) := by
  have hroot : chainFree fs (get_datastore_base_path base) = true :=
    chainFree_root_of_dsPath hcf
  rcases h1 : fsCreateDirAll fs (get_datastore_base_path base) with ⟨fs1, r1⟩
  have hok1 : r1 = .ok () := by
    have := go_ok_of_chainFreeGo (get_datastore_base_path base) fs [] hroot
    rw [fsCreateDirAll] at h1
    rw [h1] at this
    exact this
  subst hok1
  have hfs1 : fs1 = (fsCreateDirAllGo fs [] (get_datastore_base_path base)).1 := by
    rw [fsCreateDirAll] at h1
    rw [h1]
  have hcf1 : chainFree fs1 (datastorePath base d) = true := by
    rw [chainFree]
    refine chainFreeGo_mono (datastorePath base d) fs fs1 [] (fun q => ?_) hcf
    rw [hfs1]
    exact go_lookup (get_datastore_base_path base) fs [] q
  rcases h2 : fsCreateDirAll fs1 (datastorePath base d) with ⟨fs2, r2⟩
  have hok2 : r2 = .ok () := by
    have := go_ok_of_chainFreeGo (datastorePath base d) fs1 [] hcf1
    rw [fsCreateDirAll] at h2
    rw [h2] at this
    exact this
  subst hok2
  simp only [ensure_datastore_path, hd, Bool.not_true, Bool.false_eq_true, if_false, h1, h2]

theorem ensure_ok_spec {base : Path} {d : String} {fs : FS} {p : Path}
    (h : (ensure_datastore_path base d fs).2 = .ok p) :
    p = datastorePath base d ∧
    (∀ q : Path, (ensure_datastore_path base d fs).1.lookup q = fs.lookup q ∨
      (fs.lookup q = none ∧
        (ensure_datastore_path base d fs).1.lookup q = some Node.dir)) ∧
    (ensure_datastore_path base d fs).1.lookup (datastorePath base d) = some Node.dir ∧
    chainFree (ensure_datastore_path base d fs).1 (datastorePath base d) = true ∧
    (∀ r : Path, (datastorePath base d).length ≤ r.length →
      (ensure_datastore_path base d fs).1.childrenOf r = fs.childrenOf r) ∧
    (∀ q : Path, (datastorePath base d).length < q.length →
      (ensure_datastore_path base d fs).1.lookup q = fs.lookup q) := by
  by_cases hd : nameCharsOk d
  case neg =>
    rw [ensure_invalid (Bool.not_eq_true _ ▸ hd)] at h
    cases h
  case pos =>
    rcases h1 : fsCreateDirAll fs (get_datastore_base_path base) with ⟨fs1, r1⟩
    cases r1 with
    | err e =>
      have hbad : (ensure_datastore_path base d fs).2 = .err (StorageError.fromIo e) := by
        simp only [ensure_datastore_path, hd, Bool.not_true, Bool.false_eq_true, if_false, h1]
      rw [hbad] at h
      exact Result.noConfusion h
    | ok u =>
      rcases h2 : fsCreateDirAll fs1 (datastorePath base d) with ⟨fs2, r2⟩
      cases r2 with
      | err e =>
        have hbad : (ensure_datastore_path base d fs).2 = .err (StorageError.fromIo e) := by
          simp only [ensure_datastore_path, hd, Bool.not_true, Bool.false_eq_true, if_false,
            h1, h2]
        rw [hbad] at h
        exact Result.noConfusion h
      | ok u2 =>
        have hres : ensure_datastore_path base d fs = (fs2, .ok (datastorePath base d)) := by
          simp only [ensure_datastore_path, hd, Bool.not_true, Bool.false_eq_true, if_false,
            h1, h2]
        have hp : p = datastorePath base d := by
          rw [hres] at h
          simp only [Result.ok.injEq] at h
          exact h.symm
        have hok1 : (fsCreateDirAllGo fs [] (get_datastore_base_path base)).2 = .ok () := by
          rw [fsCreateDirAll] at h1
          rw [h1]
        have hok2 : (fsCreateDirAllGo fs1 [] (datastorePath base d)).2 = .ok () := by
          rw [fsCreateDirAll] at h2
          rw [h2]
        have hfs1 : fs1 = (fsCreateDirAllGo fs [] (get_datastore_base_path base)).1 := by
          rw [fsCreateDirAll] at h1
          rw [h1]
        have hfs2 : fs2 = (fsCreateDirAllGo fs1 [] (datastorePath base d)).1 := by
          rw [fsCreateDirAll] at h2
          rw [h2]
        refine ⟨hp, ?_, ?_, ?_, ?_, ?_⟩
        · intro q
          rw [hres]
          have d1 := go_lookup (get_datastore_base_path base) fs [] q
          have d2 := go_lookup (datastorePath base d) fs1 [] q
          rw [← hfs1] at d1
          rw [← hfs2] at d2
          exact lookup_disj_trans d1 d2
        · rw [hres]
          cases hds : datastorePath base d with
          | nil => exact absurd hds (datastorePath_ne_nil base d)
          | cons c restP =>
            have := go_ok_dir restP fs1 [] c (by rw [← hds]; exact hok2)
            rw [← hds] at this
            simp only [List.nil_append] at this
            rw [hfs2, hds]
            simpa [hds] using this
        · rw [hres]
          have := go_ok_chainFreeGo (datastorePath base d) fs1 [] hok2
          rw [← hfs2] at this
          exact this
        · intro r hlen
          rw [hres]
          have c2 := go_children (datastorePath base d) fs1 [] r (by simpa using hlen)
          have c1 := go_children (get_datastore_base_path base) fs [] r
            (by simp only [List.length_nil]
                have := rootP_len_le base d
                omega)
          rw [← hfs2] at c2
          rw [← hfs1] at c1
          rw [hfs2] at c2
          rw [← hfs2] at c2
          rw [c2, c1]
        · intro q hlen
          rw [hres]
          show fs2.lookup q = fs.lookup q
          have l2 := go_lookup_long (datastorePath base d) fs1 [] q
            (by simp only [List.length_nil]; omega)
          have l1 := go_lookup_long (get_datastore_base_path base) fs [] q
            (by simp only [List.length_nil]
                have := rootP_len_le base d
                omega)
          rw [← hfs2] at l2
          rw [← hfs1] at l1
          rw [l2, l1]

theorem make_file_path_invalid_key {base : Path} {d k : String} {fs : FS}
    (hk : nameCharsOk k = false) :
    make_file_path base d k fs = (fs, .err (invalidKeyError k)) := by
  simp [make_file_path, hk]

theorem make_file_path_invalid_ds {base : Path} {d k : String} {fs : FS}
    (hk : nameCharsOk k = true) (hd : nameCharsOk d = false) :
    make_file_path base d k fs = (fs, .err (invalidDatastoreError d)) := by
  simp [make_file_path, hk, ensure_invalid hd]

theorem make_file_path_cases {base : Path} {d k : String} {fs : FS}
    (hk : nameCharsOk k = true) :
    make_file_path base d k fs =
      (match ensure_datastore_path base d fs with
       | (fs1, .err e) => (fs1, .err e)
       | (fs1, .ok dsP) => (fs1, .ok (pathJoin dsP k))) := by
  simp only [make_file_path, hk, Bool.not_true, Bool.false_eq_true, if_false]

theorem make_file_path_ok_spec {base : Path} {d k : String} {fs : FS} {p : Path}
    (h : (make_file_path base d k fs).2 = .ok p) :
    nameCharsOk k = true ∧
    (make_file_path base d k fs).1 = (ensure_datastore_path base d fs).1 ∧
    (ensure_datastore_path base d fs).2 = .ok (datastorePath base d) ∧
    p = entryPath base d k := by
  by_cases hk : nameCharsOk k
  case neg =>
    rw [make_file_path_invalid_key (Bool.not_eq_true _ ▸ hk)] at h
    cases h
  case pos =>
    rcases h1 : ensure_datastore_path base d fs with ⟨fs1, r1⟩
    cases r1 with
    | err e =>
      rw [make_file_path_cases hk, h1] at h
      cases h
    | ok q =>
      have hq : q = datastorePath base d :=
        (ensure_ok_spec (by rw [h1])).1
      subst hq
      have hmk : make_file_path base d k fs =
          (fs1, .ok (pathJoin (datastorePath base d) k)) := by
        simp only [make_file_path_cases hk, h1]
      rw [hmk] at h
      simp only [Result.ok.injEq] at h
      exact ⟨hk, by rw [hmk], rfl, h.symm⟩

theorem make_file_path_ok_of {base : Path} {d k : String} {fs : FS}
    (hk : nameCharsOk k = true)
    (hens : (ensure_datastore_path base d fs).2 = .ok (datastorePath base d)) :
    (make_file_path base d k fs).2 = .ok (entryPath base d k) ∧
    (make_file_path base d k fs).1 = (ensure_datastore_path base d fs).1 := by
  rcases h1 : ensure_datastore_path base d fs with ⟨fs1, r1⟩
  rw [h1] at hens
  cases r1 with
  | err e => exact Result.noConfusion hens
  | ok q =>
    have hq : q = datastorePath base d := by
      simp only [Result.ok.injEq] at hens
      exact hens
    subst hq
    have hmk : make_file_path base d k fs =
        (fs1, .ok (pathJoin (datastorePath base d) k)) := by
      simp only [make_file_path_cases hk, h1]
    exact ⟨by rw [hmk]; rfl, by rw [hmk]⟩


/-! ### Preservation of `chainFree` and primitive operation facts -/

theorem chainFree_set_long {fs : FS} {p q : Path} {n : Node}
    (h : q.length < p.length) : chainFree (fs.set p n) q = chainFree fs q := by
  refine chainFreeGo_congr q fs (fs.set p n) [] (fun r hlo hhi => ?_)
  refine FS.lookup_set_ne _ _ _ _ ?_
  intro hh
  have := congrArg List.length hh
  simp only [List.length_nil] at hlo hhi
  omega

theorem chainFree_erase_long {fs : FS} {p q : Path}
    (h : q.length < p.length) : chainFree (fs.erase p) q = chainFree fs q := by
  refine chainFreeGo_congr q fs (fs.erase p) [] (fun r hlo hhi => ?_)
  refine FS.lookup_erase_ne _ _ _ ?_
  intro hh
  have := congrArg List.length hh
  simp only [List.length_nil] at hlo hhi
  omega

theorem fsRead_eq {fs : FS} {p : Path} (hp : p ≠ []) :
    fsRead fs p =
      (match fs.lookup p with
       | some (Node.file b) => .ok b
       | some Node.dir => .err isDirErr
       | none => .err notFoundErr) := by
  simp only [fsRead, hp, if_false]

theorem fsWrite_ok_of {fs : FS} {p : Path} {v : Bytes} (hp : p ≠ [])
    (hnd : fs.lookup p ≠ some Node.dir) (hpar : fs.isDirAt p.dropLast = true) :
    fsWrite fs p v = (fs.set p (Node.file v), .ok ()) := by
  simp only [fsWrite, hp, if_false]
  cases hl : fs.lookup p with
  | none => simp only [hpar, if_true]
  | some n =>
    cases n with
    | dir => exact absurd hl hnd
    | file b => simp only [hpar, if_true]

theorem fsWrite_ok_spec {fs : FS} {p : Path} {v : Bytes} {fs2 : FS}
    (h : fsWrite fs p v = (fs2, .ok ())) :
    fs2 = fs.set p (Node.file v) ∧ fs.lookup p ≠ some Node.dir ∧ p ≠ [] := by
  by_cases hp : p = []
  · rw [fsWrite, if_pos hp] at h
    exact absurd (congrArg Prod.snd h) (by simp)
  · rw [fsWrite, if_neg hp] at h
    cases hl : fs.lookup p with
    | none =>
      rw [hl] at h
      by_cases hdir : fs.isDirAt p.dropLast
      · rw [if_pos hdir] at h
        exact ⟨(congrArg Prod.fst h).symm, by simp, hp⟩
      · rw [if_neg hdir] at h
        exact absurd (congrArg Prod.snd h) (by simp)
    | some n =>
      cases n with
      | dir =>
        rw [hl] at h
        exact absurd (congrArg Prod.snd h) (by simp)
      | file b =>
        rw [hl] at h
        by_cases hdir : fs.isDirAt p.dropLast
        · rw [if_pos hdir] at h
          exact ⟨(congrArg Prod.fst h).symm, by simp, hp⟩
        · rw [if_neg hdir] at h
          exact absurd (congrArg Prod.snd h) (by simp)

theorem fsRemoveFile_eq {fs : FS} {p : Path} (hp : p ≠ []) :
    fsRemoveFile fs p =
      (match fs.lookup p with
       | some (Node.file _) => (fs.erase p, .ok ())
       | some Node.dir => (fs, .err isDirErr)
       | none => (fs, .err notFoundErr)) := by
  simp only [fsRemoveFile, hp, if_false]

theorem fsRemoveFile_err_state {fs : FS} {p : Path} {fs2 : FS} {e : IOError}
    (h : fsRemoveFile fs p = (fs2, .err e)) : fs2 = fs := by
  by_cases hp : p = []
  · rw [fsRemoveFile, if_pos hp] at h
    exact (congrArg Prod.fst h).symm
  · rw [fsRemoveFile_eq hp] at h
    cases hl : fs.lookup p with
    | none =>
      rw [hl] at h
      exact (congrArg Prod.fst h).symm
    | some n =>
      cases n with
      | dir =>
        rw [hl] at h
        exact (congrArg Prod.fst h).symm
      | file b =>
        rw [hl] at h
        exact absurd (congrArg Prod.snd h) (by simp)


/-! ### Characterizations of the storage operations on clean states -/

theorem make_file_path_pair {base : Path} {d k : String} {fs : FS}
    (hk : nameCharsOk k = true)
    (hens : (ensure_datastore_path base d fs).2 = .ok (datastorePath base d)) :
    make_file_path base d k fs =
      ((ensure_datastore_path base d fs).1, .ok (entryPath base d k)) := by
  obtain ⟨h2, h1⟩ := make_file_path_ok_of hk hens
  exact Prod.ext h1 h2

theorem entryPath_ne_nil {base : Path} {d k : String} (hk0 : k ≠ "") :
    entryPath base d k ≠ [] := by
  rw [entryPath_eq base d k hk0]
  simp

theorem ensure_lookup_entry {base : Path} {d k : String} {fs : FS} (hk0 : k ≠ "")
    (hens : (ensure_datastore_path base d fs).2 = .ok (datastorePath base d)) :
    (ensure_datastore_path base d fs).1.lookup (entryPath base d k) =
      fs.lookup (entryPath base d k) := by
  refine (ensure_ok_spec hens).2.2.2.2.2 _ ?_
  rw [entryPath_len base d k hk0]
  omega

theorem storage_get_reads {base : Path} {d k : String} {fs : FS}
    (hd : nameCharsOk d = true) (hk : nameCharsOk k = true) (hk0 : k ≠ "")
    (hcf : chainFree fs (datastorePath base d) = true) :
    storage_get base d k fs =
      ((ensure_datastore_path base d fs).1,
        match fs.lookup (entryPath base d k) with
        | some (Node.file b) => .ok (some b)
        | some Node.dir => .err (StorageError.fromIo isDirErr)
        | none => .ok none) := by
  have hens := ensure_ok_of_chainFree hd hcf
  have hpair := make_file_path_pair hk hens
  have hlook := @ensure_lookup_entry base d k fs hk0 hens
  simp only [storage_get, hpair, fsRead_eq (entryPath_ne_nil hk0), hlook]
  cases fs.lookup (entryPath base d k) with
  | none => rfl
  | some n =>
    cases n with
    | dir => rfl
    | file b => rfl

theorem storage_get_string_reads {base : Path} {d k : String} {fs : FS}
    (hd : nameCharsOk d = true) (hk : nameCharsOk k = true) (hk0 : k ≠ "")
    (hcf : chainFree fs (datastorePath base d) = true) :
    storage_get_string base d k fs =
      ((ensure_datastore_path base d fs).1,
        match fs.lookup (entryPath base d k) with
        | some (Node.file b) =>
          (match utf8Decode b with
           | some cs => .ok (some (String.mk cs))
           | none => .err (StorageError.fromIo invalidUtf8Err))
        | some Node.dir => .err (StorageError.fromIo isDirErr)
        | none => .ok none) := by
  have hens := ensure_ok_of_chainFree hd hcf
  have hpair := make_file_path_pair hk hens
  have hlook := @ensure_lookup_entry base d k fs hk0 hens
  simp only [storage_get_string, hpair, fsReadToString, fsRead_eq (entryPath_ne_nil hk0),
    hlook]
  cases fs.lookup (entryPath base d k) with
  | none => rfl
  | some n =>
    cases n with
    | dir => rfl
    | file b =>
      cases hdec : utf8Decode b with
      | none => simp [hdec, invalidUtf8Err]
      | some cs => simp [hdec]

theorem storage_put_writes {base : Path} {d k : String} {v : Bytes} {fs : FS}
    (hd : nameCharsOk d = true) (hk : nameCharsOk k = true) (hk0 : k ≠ "")
    (hcf : chainFree fs (datastorePath base d) = true)
    (hnd : fs.lookup (entryPath base d k) ≠ some Node.dir) :
    storage_put base d k v fs =
      ((ensure_datastore_path base d fs).1.set (entryPath base d k) (Node.file v),
        .ok ()) := by
  have hens := ensure_ok_of_chainFree hd hcf
  have hpair := make_file_path_pair hk hens
  have hlook := @ensure_lookup_entry base d k fs hk0 hens
  have hw : fsWrite (ensure_datastore_path base d fs).1 (entryPath base d k) v =
      ((ensure_datastore_path base d fs).1.set (entryPath base d k) (Node.file v),
        .ok ()) := by
    refine fsWrite_ok_of (entryPath_ne_nil hk0) ?_ ?_
    · rw [hlook]
      exact hnd
    · rw [entryPath_eq base d k hk0, List.dropLast_concat]
      simp only [FS.isDirAt, (ensure_ok_spec hens).2.2.1]
      simp
  simp only [storage_put, hpair, hw]

theorem storage_put_string_writes {base : Path} {d k v : String} {fs : FS}
    (hd : nameCharsOk d = true) (hk : nameCharsOk k = true) (hk0 : k ≠ "")
    (hcf : chainFree fs (datastorePath base d) = true)
    (hnd : fs.lookup (entryPath base d k) ≠ some Node.dir) :
    storage_put_string base d k v fs =
      ((ensure_datastore_path base d fs).1.set (entryPath base d k)
        (Node.file (utf8Encode v)), .ok ()) := by
  have hens := ensure_ok_of_chainFree hd hcf
  have hpair := make_file_path_pair hk hens
  have hlook := @ensure_lookup_entry base d k fs hk0 hens
  have hw : fsWrite (ensure_datastore_path base d fs).1 (entryPath base d k)
      (utf8Encode v) =
      ((ensure_datastore_path base d fs).1.set (entryPath base d k)
        (Node.file (utf8Encode v)), .ok ()) := by
    refine fsWrite_ok_of (entryPath_ne_nil hk0) ?_ ?_
    · rw [hlook]
      exact hnd
    · rw [entryPath_eq base d k hk0, List.dropLast_concat]
      simp only [FS.isDirAt, (ensure_ok_spec hens).2.2.1]
      simp
  simp only [storage_put_string, hpair, hw]

theorem storage_delete_reads {base : Path} {d k : String} {fs : FS}
    (hd : nameCharsOk d = true) (hk : nameCharsOk k = true) (hk0 : k ≠ "")
    (hcf : chainFree fs (datastorePath base d) = true) :
    storage_delete base d k fs =
      (match fs.lookup (entryPath base d k) with
       | some (Node.file _) =>
         ((ensure_datastore_path base d fs).1.erase (entryPath base d k), .ok ())
       | some Node.dir =>
         ((ensure_datastore_path base d fs).1, .err (StorageError.fromIo isDirErr))
       | none => ((ensure_datastore_path base d fs).1, .ok ())) := by
  have hens := ensure_ok_of_chainFree hd hcf
  have hpair := make_file_path_pair hk hens
  have hlook := @ensure_lookup_entry base d k fs hk0 hens
  simp only [storage_delete, hpair, fsRemoveFile_eq (entryPath_ne_nil hk0), hlook]
  cases fs.lookup (entryPath base d k) with
  | none => rfl
  | some n =>
    cases n with
    | dir => rfl
    | file b => rfl

theorem storage_exists_reads {base : Path} {d k : String} {fs : FS}
    (hd : nameCharsOk d = true) (hk : nameCharsOk k = true) (hk0 : k ≠ "")
    (hcf : chainFree fs (datastorePath base d) = true) :
    storage_exists base d k fs =
      ((ensure_datastore_path base d fs).1,
        .ok (fs.lookup (entryPath base d k)).isSome) := by
  have hens := ensure_ok_of_chainFree hd hcf
  have hpair := make_file_path_pair hk hens
  have hlook := @ensure_lookup_entry base d k fs hk0 hens
  simp only [storage_exists, hpair, hlook]

theorem storage_list_reads {base : Path} {d : String} {fs : FS}
    (hd : nameCharsOk d = true)
    (hcf : chainFree fs (datastorePath base d) = true) :
    storage_list base d fs =
      ((ensure_datastore_path base d fs).1,
        .ok ((fs.childrenOf (datastorePath base d)).filterMap
          (fun en => en.1.decode))) := by
  have hens := ensure_ok_of_chainFree hd hcf
  have hdir := (ensure_ok_spec hens).2.2.1
  have hch := (ensure_ok_spec hens).2.2.2.2.1 (datastorePath base d) le_rfl
  rcases hres : ensure_datastore_path base d fs with ⟨fs1, r1⟩
  simp only [hres] at hens hdir hch
  subst hens
  have hrd : fsReadDir fs1 (datastorePath base d) =
      .ok (fs.childrenOf (datastorePath base d)) := by
    simp only [fsReadDir, if_neg (datastorePath_ne_nil base d), hdir, hch]
  simp only [storage_list, hres, hrd]

theorem storage_all_reads {base : Path} {d : String} {fs : FS}
    (hd : nameCharsOk d = true)
    (hcf : chainFree fs (datastorePath base d) = true) :
    storage_all base d fs =
      ((ensure_datastore_path base d fs).1,
        .ok ((fs.childrenOf (datastorePath base d)).filterMap (fun en =>
          match en.2 with
          | Node.file content => some content
          | Node.dir => none))) := by
  have hens := ensure_ok_of_chainFree hd hcf
  have hdir := (ensure_ok_spec hens).2.2.1
  have hch := (ensure_ok_spec hens).2.2.2.2.1 (datastorePath base d) le_rfl
  rcases hres : ensure_datastore_path base d fs with ⟨fs1, r1⟩
  simp only [hres] at hens hdir hch
  subst hens
  have hrd : fsReadDir fs1 (datastorePath base d) =
      .ok (fs.childrenOf (datastorePath base d)) := by
    simp only [fsReadDir, if_neg (datastorePath_ne_nil base d), hdir, hch]
  simp only [storage_all, hres, hrd]


/-! ### Claim theorems -/

/-- C8: `storage_put_string(d, k, s)` has exactly the same effect and result
as `storage_put(d, k, b)` where `b` is the UTF-8 encoding of `s`, for every
application data directory, datastore, key, string and starting filesystem
state. -/
theorem putString_refines_put (base : Path) (d k v : String) (fs : FS) :
    storage_put_string base d k v fs = storage_put base d k (utf8Encode v) fs := rfl

/-- C3: for a valid datastore and valid key whose entry file does not exist,
`storage_get` and `storage_get_string` return the absent result (`ok none`),
not an error, whether or not the datastore directory already exists. -/
theorem get_absent_is_none (base : Path) (d k : String) (fs : FS)
    (hd : nameCharsOk d = true) (hk : nameCharsOk k = true) (hk0 : k ≠ "")
    (hcf : chainFree fs (datastorePath base d) = true)
    (habs : fs.lookup (entryPath base d k) = none) :
    (storage_get base d k fs).2 = .ok none ∧
    (storage_get_string base d k fs).2 = .ok none := by
  constructor
  · simp only [storage_get_reads hd hk hk0 hcf, habs]
  · simp only [storage_get_string_reads hd hk hk0 hcf, habs]

/-- C5: `storage_get_string` on an entry whose stored bytes are not valid
UTF-8 returns the decode error (message `stream did not contain valid UTF-8`,
no OS code), which is neither an absent result nor either `InvalidName`
error. -/
theorem get_string_decode_error (base : Path) (d k : String) (fs : FS) (b : Bytes)
    (hd : nameCharsOk d = true) (hk : nameCharsOk k = true) (hk0 : k ≠ "")
    (hcf : chainFree fs (datastorePath base d) = true)
    (hfile : fs.lookup (entryPath base d k) = some (Node.file b))
    (hbad : utf8Decode b = none) :
    (storage_get_string base d k fs).2 =
      .err ⟨"stream did not contain valid UTF-8", none⟩ ∧
    (∀ s : String, (storage_get_string base d k fs).2 ≠ .ok (some s)) ∧
    (storage_get_string base d k fs).2 ≠ .ok none ∧
    (⟨"stream did not contain valid UTF-8", none⟩ : StorageError) ≠
      invalidDatastoreError d ∧
    (⟨"stream did not contain valid UTF-8", none⟩ : StorageError) ≠
      invalidKeyError k := by
  have hmain : (storage_get_string base d k fs).2 =
      .err (⟨"stream did not contain valid UTF-8", none⟩ : StorageError) := by
    simp only [storage_get_string_reads hd hk hk0 hcf, hfile, hbad]
    rfl
  refine ⟨hmain, ?_, ?_, ?_, ?_⟩
  · intro str h
    rw [hmain] at h
    exact Result.noConfusion h
  · intro h
    rw [hmain] at h
    exact Result.noConfusion h
  · intro h
    have := congrArg StorageError.code h
    simp [invalidDatastoreError] at this
  · intro h
    have := congrArg StorageError.code h
    simp [invalidKeyError] at this

/-- C1: for a valid datastore and key (on a state whose directory chain can
be created and with no directory squatting on the entry path), `storage_put`
of `v` succeeds, a following `storage_get` returns exactly `v`, a later put
of `v2` to the same key succeeds (overwriting unconditionally), and a
subsequent get returns `v2`. -/
theorem put_get_roundtrip (base : Path) (d k : String) (v v2 : Bytes) (fs : FS)
    (hd : nameCharsOk d = true) (hk : nameCharsOk k = true) (hk0 : k ≠ "")
    (hcf : chainFree fs (datastorePath base d) = true)
    (hnd : fs.lookup (entryPath base d k) ≠ some Node.dir) :
    (storage_put base d k v fs).2 = .ok () ∧
    (storage_get base d k (storage_put base d k v fs).1).2 = .ok (some v) ∧
    (storage_put base d k v2 (storage_put base d k v fs).1).2 = .ok () ∧
    (storage_get base d k
      (storage_put base d k v2 (storage_put base d k v fs).1).1).2 =
      .ok (some v2) := by
  have hens := ensure_ok_of_chainFree hd hcf
  have hlen : (datastorePath base d).length < (entryPath base d k).length := by
    rw [entryPath_len base d k hk0]
    omega
  have hput1 : storage_put base d k v fs =
      ((ensure_datastore_path base d fs).1.set (entryPath base d k) (Node.file v),
        .ok ()) := storage_put_writes hd hk hk0 hcf hnd
  have hstate1 : (storage_put base d k v fs).1 =
      (ensure_datastore_path base d fs).1.set (entryPath base d k) (Node.file v) := by
    rw [hput1]
  have hcf2 : chainFree
      ((ensure_datastore_path base d fs).1.set (entryPath base d k) (Node.file v))
      (datastorePath base d) = true := by
    rw [chainFree_set_long hlen]
    exact (ensure_ok_spec hens).2.2.2.1
  have hens2 := ensure_ok_of_chainFree hd hcf2
  have hnd2 : ((ensure_datastore_path base d fs).1.set (entryPath base d k)
      (Node.file v)).lookup (entryPath base d k) ≠ some Node.dir := by
    rw [FS.lookup_set_self]
    simp
  have hput2 : storage_put base d k v2
      ((ensure_datastore_path base d fs).1.set (entryPath base d k) (Node.file v)) =
      ((ensure_datastore_path base d
          ((ensure_datastore_path base d fs).1.set (entryPath base d k)
            (Node.file v))).1.set (entryPath base d k) (Node.file v2),
        .ok ()) := storage_put_writes hd hk hk0 hcf2 hnd2
  have hcf3 : chainFree
      ((ensure_datastore_path base d
          ((ensure_datastore_path base d fs).1.set (entryPath base d k)
            (Node.file v))).1.set (entryPath base d k) (Node.file v2))
      (datastorePath base d) = true := by
    rw [chainFree_set_long hlen]
    exact (ensure_ok_spec hens2).2.2.2.1
  refine ⟨by rw [hput1], ?_, ?_, ?_⟩
  · rw [hstate1]
    rw [storage_get_reads hd hk hk0 hcf2]
    simp only [FS.lookup_set_self]
  · rw [hstate1, hput2]
  · rw [hstate1]
    have hstate2 : (storage_put base d k v2
        ((ensure_datastore_path base d fs).1.set (entryPath base d k)
          (Node.file v))).1 =
        (ensure_datastore_path base d
          ((ensure_datastore_path base d fs).1.set (entryPath base d k)
            (Node.file v))).1.set (entryPath base d k) (Node.file v2) := by
      rw [hput2]
    rw [hstate2]
    rw [storage_get_reads hd hk hk0 hcf3]
    simp only [FS.lookup_set_self]


/-! ### Concrete states used by the witnesses -/

/-- A concrete application data directory. -/
def exampleBase : Path := [FName.utf8 "home"]

/-- The empty filesystem. -/
def emptyFS : FS := ⟨[]⟩

/-- A filesystem holding one entry `notes/alpha` whose bytes are not valid
UTF-8. -/
def utf8BadFS : FS :=
  ⟨[([FName.utf8 "home", FName.utf8 "studio-datastores", FName.utf8 "notes",
      FName.utf8 "alpha"], Node.file [255])]⟩

theorem put_get_roundtrip_witness :
    (storage_put exampleBase "notes" "alpha" [1, 2, 3] emptyFS).2 = .ok () ∧
    (storage_get exampleBase "notes" "alpha"
      (storage_put exampleBase "notes" "alpha" [1, 2, 3] emptyFS).1).2 =
      .ok (some [1, 2, 3]) ∧
    (storage_put exampleBase "notes" "alpha" [9]
      (storage_put exampleBase "notes" "alpha" [1, 2, 3] emptyFS).1).2 = .ok () ∧
    (storage_get exampleBase "notes" "alpha"
      (storage_put exampleBase "notes" "alpha" [9]
        (storage_put exampleBase "notes" "alpha" [1, 2, 3] emptyFS).1).1).2 =
      .ok (some [9]) :=
  put_get_roundtrip exampleBase "notes" "alpha" [1, 2, 3] [9] emptyFS
    (by decide) (by decide) (by decide) (by decide) (by decide)

theorem get_absent_is_none_witness :
    (storage_get exampleBase "notes" "alpha" emptyFS).2 = .ok none ∧
    (storage_get_string exampleBase "notes" "alpha" emptyFS).2 = .ok none :=
  get_absent_is_none exampleBase "notes" "alpha" emptyFS
    (by decide) (by decide) (by decide) (by decide) (by decide)

theorem get_string_decode_error_witness :
    (storage_get_string exampleBase "notes" "alpha" utf8BadFS).2 =
      .err ⟨"stream did not contain valid UTF-8", none⟩ :=
  (get_string_decode_error exampleBase "notes" "alpha" utf8BadFS [255]
    (by decide) (by decide) (by decide) (by decide) (by decide) (by decide)).1


/-- C4: `storage_delete` on a non-existent entry returns success (the
`NotFound` failure from file removal is mapped to success), and two
consecutive deletes of the same key both succeed whether or not the entry
existed at first. -/
theorem delete_idempotent (base : Path) (d k : String) (fs : FS)
    (hd : nameCharsOk d = true) (hk : nameCharsOk k = true) (hk0 : k ≠ "")
    (hcf : chainFree fs (datastorePath base d) = true)
    (hnd : fs.lookup (entryPath base d k) ≠ some Node.dir) :
    (fs.lookup (entryPath base d k) = none →
      (storage_delete base d k fs).2 = .ok ()) ∧
    (storage_delete base d k fs).2 = .ok () ∧
    (storage_delete base d k (storage_delete base d k fs).1).2 = .ok () := by
  have hens := ensure_ok_of_chainFree hd hcf
  have hdel := storage_delete_reads hd hk hk0 hcf
  have hlen : (datastorePath base d).length < (entryPath base d k).length := by
    rw [entryPath_len base d k hk0]
    omega
  have hcf1 := (ensure_ok_spec hens).2.2.2.1
  have hlook := @ensure_lookup_entry base d k fs hk0 hens
  cases hl : fs.lookup (entryPath base d k) with
  | none =>
    simp only [hl] at hdel
    have hstate : (storage_delete base d k fs).1 =
        (ensure_datastore_path base d fs).1 := by
      rw [hdel]
    refine ⟨?_, ?_, ?_⟩
    case _ => intro _; rw [hdel]
    case _ => rw [hdel]
    rw [hstate]
    have hdel2 := storage_delete_reads hd hk hk0 hcf1
    rw [hlook] at hdel2
    simp only [hl] at hdel2
    rw [hdel2]
  | some n =>
    cases n with
    | dir => exact absurd hl hnd
    | file b =>
      simp only [hl] at hdel
      have hstate : (storage_delete base d k fs).1 =
          (ensure_datastore_path base d fs).1.erase (entryPath base d k) := by
        rw [hdel]
      refine ⟨?_, ?_, ?_⟩
      case _ =>
        intro hh
        exact absurd hh (by simp)
      case _ => rw [hdel]
      rw [hstate]
      have hcf2 : chainFree
          ((ensure_datastore_path base d fs).1.erase (entryPath base d k))
          (datastorePath base d) = true := by
        rw [chainFree_erase_long hlen]
        exact hcf1
      have hdel2 := storage_delete_reads hd hk hk0 hcf2
      simp only [FS.lookup_erase_self] at hdel2
      rw [hdel2]

theorem delete_idempotent_witness :
    (FS.lookup emptyFS (entryPath exampleBase "notes" "alpha") = none →
      (storage_delete exampleBase "notes" "alpha" emptyFS).2 = .ok ()) ∧
    (storage_delete exampleBase "notes" "alpha" emptyFS).2 = .ok () ∧
    (storage_delete exampleBase "notes" "alpha"
      (storage_delete exampleBase "notes" "alpha" emptyFS).1).2 = .ok () :=
  delete_idempotent exampleBase "notes" "alpha" emptyFS
    (by decide) (by decide) (by decide) (by decide) (by decide)

/-- C6: `storage_list` and `storage_all` on a datastore whose directory has
no entries succeed with the empty sequence, and the datastore directory
exists afterwards (created as a side effect). -/
theorem empty_datastore_list_all (base : Path) (d : String) (fs : FS)
    (hd : nameCharsOk d = true)
    (hcf : chainFree fs (datastorePath base d) = true)
    (hemp : fs.childrenOf (datastorePath base d) = []) :
    (storage_list base d fs).2 = .ok [] ∧
    (storage_all base d fs).2 = .ok [] ∧
    (storage_list base d fs).1.lookup (datastorePath base d) = some Node.dir ∧
    (storage_all base d fs).1.lookup (datastorePath base d) = some Node.dir := by
  have hens := ensure_ok_of_chainFree hd hcf
  have hdir := (ensure_ok_spec hens).2.2.1
  have hlist := storage_list_reads hd hcf
  have hall := storage_all_reads hd hcf
  rw [hemp] at hlist hall
  exact ⟨by rw [hlist]; rfl, by rw [hall]; rfl, by rw [hlist]; exact hdir,
    by rw [hall]; exact hdir⟩

theorem empty_datastore_list_all_witness :
    (storage_list exampleBase "notes" emptyFS).2 = .ok [] ∧
    (storage_all exampleBase "notes" emptyFS).2 = .ok [] ∧
    (storage_list exampleBase "notes" emptyFS).1.lookup
      (datastorePath exampleBase "notes") = some Node.dir ∧
    (storage_all exampleBase "notes" emptyFS).1.lookup
      (datastorePath exampleBase "notes") = some Node.dir :=
  empty_datastore_list_all exampleBase "notes" emptyFS
    (by decide) (by decide) (by decide)

/-- C9: `storage_list` succeeds and returns the decoded file name of every
immediate entry of the datastore directory, silently skipping exactly the
entries whose name does not decode as UTF-8; every decodable entry name is
in the returned list, and undecodable names decode to `none`. -/
theorem list_skips_undecodable (base : Path) (d : String) (fs : FS)
    (hd : nameCharsOk d = true)
    (hcf : chainFree fs (datastorePath base d) = true) :
    (storage_list base d fs).2 =
      .ok ((fs.childrenOf (datastorePath base d)).filterMap
        (fun en => en.1.decode)) ∧
    (∀ en, en ∈ fs.childrenOf (datastorePath base d) → ∀ str,
      en.1.decode = some str →
      str ∈ (fs.childrenOf (datastorePath base d)).filterMap
        (fun en => en.1.decode)) ∧
    (∀ id : Nat, FName.decode (FName.raw id) = none) := by
  refine ⟨by rw [storage_list_reads hd hcf], ?_, fun id => rfl⟩
  intro en hen str hs
  exact List.mem_filterMap.mpr ⟨en, hen, hs⟩

/-- A directory with one decodable entry and one undecodable entry, for the
C9 witness. -/
def mixedFS : FS :=
  ⟨[([FName.utf8 "home", FName.utf8 "studio-datastores", FName.utf8 "notes",
      FName.utf8 "alpha"], Node.file [1]),
    ([FName.utf8 "home", FName.utf8 "studio-datastores", FName.utf8 "notes",
      FName.raw 0], Node.file [2])]⟩

theorem list_skips_undecodable_witness :
    (storage_list exampleBase "notes" mixedFS).2 = .ok ["alpha"] :=
  by
    have h := (list_skips_undecodable exampleBase "notes" mixedFS
      (by decide) (by decide)).1
    rw [h]
    decide

/-- C10: the charset validation accepts the empty string vacuously, so every
operation given an empty datastore or key name passes validation and goes on
to the filesystem; an empty key resolves to the datastore directory path
itself rather than to a file inside it. -/
theorem empty_name_accepted (base : Path) (d : String) (fs : FS)
    (hd : nameCharsOk d = true)
    (hcf : chainFree fs (datastorePath base d) = true) :
    nameCharsOk "" = true ∧
    entryPath base d "" = datastorePath base d ∧
    (make_file_path base d "" fs).2 = .ok (datastorePath base d) ∧
    (storage_get base d "" fs).1.lookup (datastorePath base d) = some Node.dir ∧
    (ensure_datastore_path base "" fs).2 = .ok (datastorePath base "") := by
  have hens := ensure_ok_of_chainFree hd hcf
  have hep : entryPath base d "" = datastorePath base d := by
    rw [entryPath, pathJoin, if_pos rfl]
  have hdirr := (ensure_ok_spec hens).2.2.1
  refine ⟨by decide, hep, ?_, ?_, ?_⟩
  · have := (make_file_path_ok_of (by decide : nameCharsOk "" = true) hens).1
    rw [hep] at this
    exact this
  · have hpair := @make_file_path_pair base d "" fs (by decide) hens
    have hread : fsRead (ensure_datastore_path base d fs).1 (entryPath base d "") =
        .err isDirErr := by
      rw [hep]
      simp only [fsRead_eq (datastorePath_ne_nil base d), hdirr]
    have hget : storage_get base d "" fs =
        ((ensure_datastore_path base d fs).1, .err (StorageError.fromIo isDirErr)) := by
      simp only [storage_get, hpair, hread]
      rfl
    rw [hget]
    exact hdirr
  · refine ensure_ok_of_chainFree (by decide : nameCharsOk "" = true) ?_
    have hroot := chainFree_root_of_dsPath hcf
    rw [datastorePath_eq]
    simpa using hroot

theorem empty_name_accepted_witness :
    nameCharsOk "" = true ∧
    entryPath exampleBase "notes" "" = datastorePath exampleBase "notes" ∧
    (make_file_path exampleBase "notes" "" emptyFS).2 =
      .ok (datastorePath exampleBase "notes") ∧
    (storage_get exampleBase "notes" "" emptyFS).1.lookup
      (datastorePath exampleBase "notes") = some Node.dir ∧
    (ensure_datastore_path exampleBase "" emptyFS).2 =
      .ok (datastorePath exampleBase "") :=
  empty_name_accepted exampleBase "notes" emptyFS
    (by decide : nameCharsOk "notes" = true)
    (by decide : chainFree emptyFS (datastorePath exampleBase "notes") = true)


/-- C2: every operation that receives an invalid name returns the
`InvalidName`-style error naming the offending input and its role, with the
filesystem state returned unchanged — validation happens before any
filesystem action.  The key is validated before the datastore, so when both
are invalid the key error is reported. -/
theorem invalid_name_rejected (s : String) (hs : nameCharsOk s = false)
    (base : Path) (fs : FS) (d k : String) (v : Bytes) (w : String) :
    storage_list base s fs = (fs, .err (invalidDatastoreError s)) ∧
    storage_all base s fs = (fs, .err (invalidDatastoreError s)) ∧
    storage_get base d s fs = (fs, .err (invalidKeyError s)) ∧
    storage_get base s k fs =
      (fs, .err (if nameCharsOk k then invalidDatastoreError s
        else invalidKeyError k)) ∧
    storage_get_string base d s fs = (fs, .err (invalidKeyError s)) ∧
    storage_get_string base s k fs =
      (fs, .err (if nameCharsOk k then invalidDatastoreError s
        else invalidKeyError k)) ∧
    storage_put base d s v fs = (fs, .err (invalidKeyError s)) ∧
    storage_put base s k v fs =
      (fs, .err (if nameCharsOk k then invalidDatastoreError s
        else invalidKeyError k)) ∧
    storage_put_string base d s w fs = (fs, .err (invalidKeyError s)) ∧
    storage_put_string base s k w fs =
      (fs, .err (if nameCharsOk k then invalidDatastoreError s
        else invalidKeyError k)) ∧
    storage_delete base d s fs = (fs, .err (invalidKeyError s)) ∧
    storage_delete base s k fs =
      (fs, .err (if nameCharsOk k then invalidDatastoreError s
        else invalidKeyError k)) ∧
    storage_exists base d s fs = (fs, .err (invalidKeyError s)) ∧
    storage_exists base s k fs =
      (fs, .err (if nameCharsOk k then invalidDatastoreError s
        else invalidKeyError k)) := by
  refine ⟨?_, ?_, ?_, ?_, ?_, ?_, ?_, ?_, ?_, ?_, ?_, ?_, ?_, ?_⟩
  · simp only [storage_list, ensure_invalid hs]
  · simp only [storage_all, ensure_invalid hs]
  · simp only [storage_get, make_file_path_invalid_key hs]
  · by_cases hk : nameCharsOk k = true
    · rw [if_pos hk]
      simp only [storage_get, make_file_path_invalid_ds hk hs]
    · rw [if_neg hk]
      simp only [storage_get, make_file_path_invalid_key (Bool.not_eq_true _ ▸ hk)]
  · simp only [storage_get_string, make_file_path_invalid_key hs]
  · by_cases hk : nameCharsOk k = true
    · rw [if_pos hk]
      simp only [storage_get_string, make_file_path_invalid_ds hk hs]
    · rw [if_neg hk]
      simp only [storage_get_string,
        make_file_path_invalid_key (Bool.not_eq_true _ ▸ hk)]
  · simp only [storage_put, make_file_path_invalid_key hs]
  · by_cases hk : nameCharsOk k = true
    · rw [if_pos hk]
      simp only [storage_put, make_file_path_invalid_ds hk hs]
    · rw [if_neg hk]
      simp only [storage_put, make_file_path_invalid_key (Bool.not_eq_true _ ▸ hk)]
  · simp only [storage_put_string, make_file_path_invalid_key hs]
  · by_cases hk : nameCharsOk k = true
    · rw [if_pos hk]
      simp only [storage_put_string, make_file_path_invalid_ds hk hs]
    · rw [if_neg hk]
      simp only [storage_put_string,
        make_file_path_invalid_key (Bool.not_eq_true _ ▸ hk)]
  · simp only [storage_delete, make_file_path_invalid_key hs]
  · by_cases hk : nameCharsOk k = true
    · rw [if_pos hk]
      simp only [storage_delete, make_file_path_invalid_ds hk hs]
    · rw [if_neg hk]
      simp only [storage_delete, make_file_path_invalid_key (Bool.not_eq_true _ ▸ hk)]
  · simp only [storage_exists, make_file_path_invalid_key hs]
  · by_cases hk : nameCharsOk k = true
    · rw [if_pos hk]
      simp only [storage_exists, make_file_path_invalid_ds hk hs]
    · rw [if_neg hk]
      simp only [storage_exists, make_file_path_invalid_key (Bool.not_eq_true _ ▸ hk)]

theorem invalid_name_rejected_witness :
    storage_put exampleBase "notes" "A" [1] emptyFS =
      (emptyFS, .err (invalidKeyError "A")) ∧
    storage_list exampleBase "A" emptyFS =
      (emptyFS, .err (invalidDatastoreError "A")) :=
  ⟨(invalid_name_rejected "A" (by decide) exampleBase emptyFS "notes" "beta" [1]
      "w").2.2.2.2.2.2.1,
   (invalid_name_rejected "A" (by decide) exampleBase emptyFS "notes" "beta" [1]
      "w").1⟩

/-! ### Helper lemmas for the directory-exists invariant (C7) -/

theorem fsRemoveFile_ok_spec {fs : FS} {p : Path} {fs2 : FS}
    (h : fsRemoveFile fs p = (fs2, .ok ())) :
    fs2 = fs.erase p ∧ ∃ b, fs.lookup p = some (Node.file b) := by
  by_cases hp : p = []
  · rw [fsRemoveFile, if_pos hp] at h
    exact absurd (congrArg Prod.snd h) (by simp)
  · rw [fsRemoveFile_eq hp] at h
    cases hl : fs.lookup p with
    | none =>
      rw [hl] at h
      exact absurd (congrArg Prod.snd h) (by simp)
    | some n =>
      cases n with
      | dir =>
        rw [hl] at h
        exact absurd (congrArg Prod.snd h) (by simp)
      | file b =>
        rw [hl] at h
        exact ⟨(congrArg Prod.fst h).symm, b, rfl⟩

theorem make_ok_dir {base : Path} {d k : String} {fs fs1 : FS} {p : Path}
    (hm : make_file_path base d k fs = (fs1, .ok p)) :
    fs1.lookup (datastorePath base d) = some Node.dir ∧ p = entryPath base d k := by
  have mspec := make_file_path_ok_spec
    (show (make_file_path base d k fs).2 = .ok p by rw [hm])
  have h1 : (ensure_datastore_path base d fs).1 = fs1 := by
    rw [← mspec.2.1, hm]
  have hdir := (ensure_ok_spec mspec.2.2.1).2.2.1
  rw [h1] at hdir
  exact ⟨hdir, mspec.2.2.2⟩

theorem put_success_dir {base : Path} {d k : String} {v : Bytes} {fs : FS}
    (hok : (storage_put base d k v fs).2 = .ok ()) :
    (storage_put base d k v fs).1.lookup (datastorePath base d) = some Node.dir := by
  rcases hm : make_file_path base d k fs with ⟨fs1, rm⟩
  cases rm with
  | err e =>
    have hb : (storage_put base d k v fs).2 = .err e := by
      simp only [storage_put, hm]
    rw [hb] at hok
    exact Result.noConfusion hok
  | ok p =>
    obtain ⟨hdir, hp⟩ := make_ok_dir hm
    have hbody : storage_put base d k v fs =
        (match fsWrite fs1 p v with
         | (fs2, .ok _) => (fs2, .ok ())
         | (fs2, .err e) => (fs2, .err (StorageError.fromIo e))) := by
      simp only [storage_put, hm]
    rcases hw : fsWrite fs1 p v with ⟨fs2, r2⟩
    rw [hw] at hbody
    cases r2 with
    | err e =>
      rw [hbody] at hok
      exact Result.noConfusion hok
    | ok u =>
      cases u
      obtain ⟨hset, hnd, hpn⟩ := fsWrite_ok_spec hw
      rw [hbody]
      show fs2.lookup (datastorePath base d) = some Node.dir
      rw [hset]
      have hne : datastorePath base d ≠ p := by
        intro hh
        rw [← hh] at hnd
        exact hnd hdir
      rw [FS.lookup_set_ne _ _ _ _ hne]
      exact hdir

theorem get_success_dir {base : Path} {d k : String} {fs : FS} {r : Option Bytes}
    (hok : (storage_get base d k fs).2 = .ok r) :
    (storage_get base d k fs).1.lookup (datastorePath base d) = some Node.dir := by
  rcases hm : make_file_path base d k fs with ⟨fs1, rm⟩
  cases rm with
  | err e =>
    have hb : (storage_get base d k fs).2 = .err e := by
      simp only [storage_get, hm]
    rw [hb] at hok
    exact Result.noConfusion hok
  | ok p =>
    obtain ⟨hdir, hp⟩ := make_ok_dir hm
    have hst : (storage_get base d k fs).1 = fs1 := by
      simp only [storage_get, hm]
      cases hr : fsRead fs1 p with
      | ok b => rfl
      | err e =>
        by_cases he : e.kind = IOErrorKind.notFound
        · simp [he]
        · simp [he]
    rw [hst]
    exact hdir

theorem get_string_success_dir {base : Path} {d k : String} {fs : FS}
    {r : Option String}
    (hok : (storage_get_string base d k fs).2 = .ok r) :
    (storage_get_string base d k fs).1.lookup (datastorePath base d) =
      some Node.dir := by
  rcases hm : make_file_path base d k fs with ⟨fs1, rm⟩
  cases rm with
  | err e =>
    have hb : (storage_get_string base d k fs).2 = .err e := by
      simp only [storage_get_string, hm]
    rw [hb] at hok
    exact Result.noConfusion hok
  | ok p =>
    obtain ⟨hdir, hp⟩ := make_ok_dir hm
    have hst : (storage_get_string base d k fs).1 = fs1 := by
      simp only [storage_get_string, hm]
      cases hr : fsReadToString fs1 p with
      | ok b => rfl
      | err e =>
        by_cases he : e.kind = IOErrorKind.notFound
        · simp [he]
        · simp [he]
    rw [hst]
    exact hdir

theorem delete_success_dir {base : Path} {d k : String} {fs : FS}
    (hok : (storage_delete base d k fs).2 = .ok ()) :
    (storage_delete base d k fs).1.lookup (datastorePath base d) =
      some Node.dir := by
  rcases hm : make_file_path base d k fs with ⟨fs1, rm⟩
  cases rm with
  | err e =>
    have hb : (storage_delete base d k fs).2 = .err e := by
      simp only [storage_delete, hm]
    rw [hb] at hok
    exact Result.noConfusion hok
  | ok p =>
    obtain ⟨hdir, hp⟩ := make_ok_dir hm
    have hbody : storage_delete base d k fs =
        (match fsRemoveFile fs1 p with
         | (fs2, .ok _) => (fs2, .ok ())
         | (fs2, .err e) =>
           if e.kind = IOErrorKind.notFound then (fs2, .ok ())
           else (fs2, .err (StorageError.fromIo e))) := by
      simp only [storage_delete, hm]
    rcases hw : fsRemoveFile fs1 p with ⟨fs2, r2⟩
    rw [hw] at hbody
    cases r2 with
    | ok u =>
      cases u
      obtain ⟨hset, b, hfile⟩ := fsRemoveFile_ok_spec hw
      rw [hbody]
      show fs2.lookup (datastorePath base d) = some Node.dir
      rw [hset]
      have hne : datastorePath base d ≠ p := by
        intro hh
        rw [← hh] at hfile
        rw [hfile] at hdir
        exact Node.noConfusion (Option.some.injEq _ _ ▸ hdir)
      rw [FS.lookup_erase_ne _ _ _ hne]
      exact hdir
    | err e =>
      have hfs2 : fs2 = fs1 := fsRemoveFile_err_state hw
      by_cases he : e.kind = IOErrorKind.notFound
      · rw [hbody]
        simp only [he, if_true]
        show fs2.lookup (datastorePath base d) = some Node.dir
        rw [hfs2]
        exact hdir
      · rw [hbody] at hok
        simp only [he, if_false] at hok
        exact Result.noConfusion hok

theorem exists_success_dir {base : Path} {d k : String} {fs : FS} {r : Bool}
    (hok : (storage_exists base d k fs).2 = .ok r) :
    (storage_exists base d k fs).1.lookup (datastorePath base d) =
      some Node.dir := by
  rcases hm : make_file_path base d k fs with ⟨fs1, rm⟩
  cases rm with
  | err e =>
    have hb : (storage_exists base d k fs).2 = .err e := by
      simp only [storage_exists, hm]
    rw [hb] at hok
    exact Result.noConfusion hok
  | ok p =>
    obtain ⟨hdir, hp⟩ := make_ok_dir hm
    have hst : (storage_exists base d k fs).1 = fs1 := by
      simp only [storage_exists, hm]
    rw [hst]
    exact hdir

theorem list_success_dir {base : Path} {d : String} {fs : FS} {r : List String}
    (hok : (storage_list base d fs).2 = .ok r) :
    (storage_list base d fs).1.lookup (datastorePath base d) = some Node.dir := by
  rcases hen : ensure_datastore_path base d fs with ⟨fs1, r1⟩
  cases r1 with
  | err e =>
    have hb : (storage_list base d fs).2 = .err e := by
      simp only [storage_list, hen]
    rw [hb] at hok
    exact Result.noConfusion hok
  | ok p =>
    have hdir := (ensure_ok_spec
      (show (ensure_datastore_path base d fs).2 = .ok p by rw [hen])).2.2.1
    have h1 : (ensure_datastore_path base d fs).1 = fs1 := by rw [hen]
    rw [h1] at hdir
    have hst : (storage_list base d fs).1 = fs1 := by
      simp only [storage_list, hen]
      cases hr : fsReadDir fs1 p with
      | ok l => rfl
      | err e => rfl
    rw [hst]
    exact hdir

theorem all_success_dir {base : Path} {d : String} {fs : FS} {r : List Bytes}
    (hok : (storage_all base d fs).2 = .ok r) :
    (storage_all base d fs).1.lookup (datastorePath base d) = some Node.dir := by
  rcases hen : ensure_datastore_path base d fs with ⟨fs1, r1⟩
  cases r1 with
  | err e =>
    have hb : (storage_all base d fs).2 = .err e := by
      simp only [storage_all, hen]
    rw [hb] at hok
    exact Result.noConfusion hok
  | ok p =>
    have hdir := (ensure_ok_spec
      (show (ensure_datastore_path base d fs).2 = .ok p by rw [hen])).2.2.1
    have h1 : (ensure_datastore_path base d fs).1 = fs1 := by rw [hen]
    rw [h1] at hdir
    have hst : (storage_all base d fs).1 = fs1 := by
      simp only [storage_all, hen]
      cases hr : fsReadDir fs1 p with
      | ok l => rfl
      | err e => rfl
    rw [hst]
    exact hdir

/-- C7: after any of the eight storage operations referencing datastore `d`
returns success, the directory `<app_data_dir>/studio-datastores/<d>` exists
in the resulting filesystem state. -/
theorem datastore_dir_exists_after_success (base : Path) (d k : String)
    (v : Bytes) (w : String) (fs : FS) :
    (∀ r, (storage_list base d fs).2 = .ok r →
      (storage_list base d fs).1.lookup (datastorePath base d) = some Node.dir) ∧
    (∀ r, (storage_all base d fs).2 = .ok r →
      (storage_all base d fs).1.lookup (datastorePath base d) = some Node.dir) ∧
    (∀ r, (storage_get base d k fs).2 = .ok r →
      (storage_get base d k fs).1.lookup (datastorePath base d) = some Node.dir) ∧
    (∀ r, (storage_get_string base d k fs).2 = .ok r →
      (storage_get_string base d k fs).1.lookup (datastorePath base d) =
        some Node.dir) ∧
    ((storage_put base d k v fs).2 = .ok () →
      (storage_put base d k v fs).1.lookup (datastorePath base d) =
        some Node.dir) ∧
    ((storage_put_string base d k w fs).2 = .ok () →
      (storage_put_string base d k w fs).1.lookup (datastorePath base d) =
        some Node.dir) ∧
    ((storage_delete base d k fs).2 = .ok () →
      (storage_delete base d k fs).1.lookup (datastorePath base d) =
        some Node.dir) ∧
    (∀ r, (storage_exists base d k fs).2 = .ok r →
      (storage_exists base d k fs).1.lookup (datastorePath base d) =
        some Node.dir) := by
  refine ⟨fun r h => list_success_dir h, fun r h => all_success_dir h,
    fun r h => get_success_dir h, fun r h => get_string_success_dir h,
    fun h => put_success_dir h, fun h => ?_, fun h => delete_success_dir h,
    fun r h => exists_success_dir h⟩
  have hps : storage_put_string base d k w fs =
      storage_put base d k (utf8Encode w) fs := rfl
  rw [hps] at h ⊢
  exact put_success_dir h

theorem datastore_dir_exists_after_success_witness :
    (storage_put exampleBase "notes" "alpha" [1] emptyFS).2 = .ok () ∧
    (storage_put exampleBase "notes" "alpha" [1] emptyFS).1.lookup
      (datastorePath exampleBase "notes") = some Node.dir :=
  ⟨by decide,
   (datastore_dir_exists_after_success exampleBase "notes" "alpha" [1] "w"
      emptyFS).2.2.2.2.1 (by decide)⟩

end Shinsei
